import Mathlib

/-!
Verification development for the `testc` smoke-test program of the
Symphonia repository and the demuxing subsystem it exercises.

The only source file is `src/testc/main.c`:

```
int main(int argc, char const *argv[])
{
    void *mss = sm_io_media_source_stream_new_file("D:\\Media\\...mkv");
    void *format = sm_probe(mss);
    SMPacket* packet = sm_format_next_packet(format);
    if (packet != NULL) {
        printf("Packet was decoded");
    }
    return 0;
}
```

We embed `main` as a pure function of an environment supplying the three
foreign functions.  Pointers are modelled as natural numbers with `0`
playing the role of `NULL`.  The run of `main` is recorded as a trace of
the external calls it makes, together with the bytes written to standard
output and the exit status.
-/

namespace Symphonia

/-- The hard-coded media file path from `src/testc/main.c` line 6. -/
def mediaPath : String :=
  "D:\\Media\\Torrent\\Movies\\A.Million.Miles.Away.2023.DV.HDR.2160p.WEB-DL.H265.Master5.mkv"

/-- The environment: return values of the three foreign library functions.
A pointer is a `Nat`; `0` is `NULL`.  Each function is modelled as a pure
map from its argument to its returned pointer. -/
structure SMEnv where
  newFile : String → Nat
  probe : Nat → Nat
  nextPacket : Nat → Nat

/-- One observable external call made by `main`, with argument and result.
`releaseCall` is the shape a cleanup/free/close call would have; `main`
never emits one. -/
inductive ExtCall where
  | newFileCall (path : String) (ret : Nat)
  | probeCall (arg ret : Nat)
  | nextPacketCall (arg ret : Nat)
  | releaseCall (handle : Nat)
deriving DecidableEq

/-- Result of one complete run of `main`: the external calls in order,
the total standard output, and the process exit status. -/
structure RunResult where
  trace : List ExtCall
  stdout : String
  exitCode : Int
deriving DecidableEq

/-- Shallow embedding of `main` from `src/testc/main.c`.  `argc`/`argv`
are received exactly as in the C source and, as there, never read. -/
def main_run (env : SMEnv) (argc : Nat) (argv : List String) : RunResult :=
  let mss := env.newFile mediaPath
  let format := env.probe mss
  let packet := env.nextPacket format
  { trace := [ExtCall.newFileCall mediaPath mss,
              ExtCall.probeCall mss format,
              ExtCall.nextPacketCall format packet],
    stdout := if packet ≠ 0 then "Packet was decoded" else "",
    exitCode := 0 }

/-- The pointer returned by the single `sm_format_next_packet` call. -/
def finalPacket (env : SMEnv) : Nat :=
  env.nextPacket (env.probe (env.newFile mediaPath))

/-- Recognizer for `sm_format_next_packet` calls in a trace. -/
def isNextPacketCall : ExtCall → Bool
  | ExtCall.nextPacketCall _ _ => true
  | _ => false

/-- Recognizer for cleanup/release calls in a trace. -/
def isReleaseCall : ExtCall → Bool
  | ExtCall.releaseCall _ => true
  | _ => false

/-- C1: the confirmation message is printed iff the single
`sm_format_next_packet` call returned a non-NULL pointer; that function is
called exactly once, and nothing is printed when it returns NULL. -/
theorem message_iff_packet_nonnull (env : SMEnv) (argc : Nat) (argv : List String) :
    ((main_run env argc argv).stdout = "Packet was decoded" ↔ finalPacket env ≠ 0)
    ∧ (main_run env argc argv).trace.countP isNextPacketCall = 1
    ∧ (finalPacket env = 0 → (main_run env argc argv).stdout = "") := by
  by_cases h : finalPacket env = 0 <;>
    simp [main_run, finalPacket, isNextPacketCall, List.countP, List.countP.go, h] at *

/-- C2: every run makes exactly the three foreign calls, in order
`sm_io_media_source_stream_new_file` (on the fixed path), `sm_probe`
(on the first result), `sm_format_next_packet` (on the second result),
each exactly once and with no other call. -/
theorem call_sequence (env : SMEnv) (argc : Nat) (argv : List String) :
    (main_run env argc argv).trace =
      [ExtCall.newFileCall mediaPath (env.newFile mediaPath),
       ExtCall.probeCall (env.newFile mediaPath) (env.probe (env.newFile mediaPath)),
       ExtCall.nextPacketCall (env.probe (env.newFile mediaPath))
         (env.nextPacket (env.probe (env.newFile mediaPath)))] := rfl

/-- C3: the results of `sm_io_media_source_stream_new_file` and `sm_probe`
are forwarded to the next call unconditionally, for every return value
including NULL, and the only comparison influencing the observable output
is the NULL test on the packet: two environments whose packets agree on
being NULL produce the same standard output. -/
theorem only_packet_null_check (env env' : SMEnv) (argc : Nat) (argv : List String)
    (h : finalPacket env = 0 ↔ finalPacket env' = 0) :
    (main_run env argc argv).trace =
      [ExtCall.newFileCall mediaPath (env.newFile mediaPath),
       ExtCall.probeCall (env.newFile mediaPath) (env.probe (env.newFile mediaPath)),
       ExtCall.nextPacketCall (env.probe (env.newFile mediaPath)) (finalPacket env)]
    ∧ (main_run env argc argv).stdout = (main_run env' argc argv).stdout := by
  refine ⟨rfl, ?_⟩
  by_cases h0 : finalPacket env = 0
  · have h0' : finalPacket env' = 0 := h.mp h0
    simp [main_run, finalPacket] at *
    simp [h0, h0']
  · have h0' : ¬ finalPacket env' = 0 := fun hc => h0 (h.mpr hc)
    simp [main_run, finalPacket] at *
    simp [h0, h0']

/-- Concrete instantiation of `only_packet_null_check`: an environment
returning NULL at every step and one returning non-NULL handles but a
NULL packet produce the same (empty) output, and both forward the
intermediate handles unchanged. -/
theorem only_packet_null_check_witness :
    (finalPacket ⟨fun _ => 0, fun _ => 0, fun _ => 0⟩ = 0 ↔
       finalPacket ⟨fun _ => 5, fun _ => 7, fun _ => 0⟩ = 0)
    ∧ ((main_run ⟨fun _ => 0, fun _ => 0, fun _ => 0⟩ 1 []).trace =
        [ExtCall.newFileCall mediaPath 0, ExtCall.probeCall 0 0,
         ExtCall.nextPacketCall 0 0]
      ∧ (main_run ⟨fun _ => 0, fun _ => 0, fun _ => 0⟩ 1 []).stdout =
          (main_run ⟨fun _ => 5, fun _ => 7, fun _ => 0⟩ 1 []).stdout) :=
  ⟨Iff.rfl,
   only_packet_null_check ⟨fun _ => 0, fun _ => 0, fun _ => 0⟩
     ⟨fun _ => 5, fun _ => 7, fun _ => 0⟩ 1 [] Iff.rfl⟩

/-- C4: `argc` and `argv` never influence the run: any two argument
vectors give identical traces, output and exit status. -/
theorem argv_noninterference (env : SMEnv) (argc₁ argc₂ : Nat)
    (argv₁ argv₂ : List String) :
    main_run env argc₁ argv₁ = main_run env argc₂ argv₂ := rfl

/-- C5: no execution path performs a cleanup or resource-release call:
the trace never contains a release event for any handle. -/
theorem no_release_call (env : SMEnv) (argc : Nat) (argv : List String) :
    (main_run env argc argv).trace.countP isReleaseCall = 0 := by
  simp [main_run, isReleaseCall, List.countP, List.countP.go]

/-- C9: `main` returns exit status 0 on every execution path, whatever
the three foreign calls return. -/
theorem exit_status_zero (env : SMEnv) (argc : Nat) (argv : List String) :
    (main_run env argc argv).exitCode = 0 := rfl

/-- C10: the total standard output of a run is either empty or exactly
the string "Packet was decoded", with no trailing newline. -/
theorem stdout_dichotomy (env : SMEnv) (argc : Nat) (argv : List String) :
    (main_run env argc argv).stdout = ""
    ∨ (main_run env argc argv).stdout = "Packet was decoded" := by
  by_cases h : finalPacket env = 0
  · left
    simp [main_run, finalPacket] at *
    simp [h]
  · right
    simp [main_run, finalPacket] at *
    simp [h]

/-!
The demuxing library behind the three foreign functions is not part of
`src/` (only its caller `main.c` is), so the following components are
modelled from the specification: the Demuxer state machine of §4.3, the
Format Prober of §4.2 and the seek contract of §4.3.
-/

/-- A packet: stream identifier, timestamp (stream-local units) and an
opaque byte payload, as in §3 of the specification. -/
structure Packet where
  streamId : Nat
  ts : Nat
  payload : List Nat
deriving DecidableEq

/-- Modelled from the spec: the Demuxer states of §4.3 (`Seeking` is
transient and not reachable in this forward-iteration model). -/
inductive DemuxState where
  | initial
  | streaming
  | exhausted
  | failed
deriving DecidableEq

/-- One container-level record: either a well-formed packet record or a
malformed structure. -/
inductive ContainerRecord where
  | record (streamId ts : Nat) (payload : List Nat)
  | malformed
deriving DecidableEq

/-- Modelled from the spec: a Demuxer owns the remaining container
records and its state-machine state (§4.3). -/
structure Demuxer where
  records : List ContainerRecord
  state : DemuxState
deriving DecidableEq

/-- Result of one `next_packet` call (§4.3): a packet, `EndOfStream`, or
`CorruptContainerError`. -/
inductive NextResult where
  | packet (p : Packet)
  | endOfStream
  | corruptContainerError
deriving DecidableEq

/-- Modelled from the spec: `next_packet` (§4.3).  In `Exhausted` it
returns `EndOfStream` and stays put; in `Failed` no further packets are
recoverable; otherwise it consumes the next record, failing into `Failed`
on a malformed structure and into `Exhausted` at the physical end. -/
def next_packet (d : Demuxer) : NextResult × Demuxer :=
  match d.state with
  | DemuxState.exhausted => (NextResult.endOfStream, d)
  | DemuxState.failed => (NextResult.corruptContainerError, d)
  | _ =>
    match d.records with
    | [] => (NextResult.endOfStream, { d with state := DemuxState.exhausted })
    | ContainerRecord.malformed :: _ =>
        (NextResult.corruptContainerError, { d with state := DemuxState.failed })
    | ContainerRecord.record sid ts pl :: rest =>
        (NextResult.packet ⟨sid, ts, pl⟩,
         { records := rest, state := DemuxState.streaming })

/-- The demuxer after `n` further `next_packet` calls. -/
def run_next (d : Demuxer) : Nat → Demuxer
  | 0 => d
  | n + 1 => (next_packet (run_next d n)).2

/-- C6: exhaustion is idempotent — once the demuxer is in the
`Exhausted` state, every later `next_packet` call (any number of calls
deep) returns `EndOfStream`, never an error, and the state stays
`Exhausted`. -/
theorem exhausted_idempotent (d : Demuxer) (h : d.state = DemuxState.exhausted) :
    ∀ n : Nat, (next_packet (run_next d n)).1 = NextResult.endOfStream
      ∧ (run_next d n).state = DemuxState.exhausted := by
  intro n
  induction n with
  | zero => simp [run_next, next_packet, h]
  | succ k ih =>
      have hs : (run_next d (k + 1)).state = DemuxState.exhausted := by
        have : run_next d (k + 1) = (next_packet (run_next d k)).2 := rfl
        rw [this]
        rcases ih with ⟨_, hstate⟩
        simp [next_packet, hstate]
      exact ⟨by simp [next_packet, hs], hs⟩

/-- Concrete instantiation of `exhausted_idempotent` on an exhausted
demuxer, three calls deep. -/
theorem exhausted_idempotent_witness :
    (Demuxer.mk [] DemuxState.exhausted).state = DemuxState.exhausted
    ∧ ((next_packet (run_next (Demuxer.mk [] DemuxState.exhausted) 3)).1 =
         NextResult.endOfStream
       ∧ (run_next (Demuxer.mk [] DemuxState.exhausted) 3).state =
           DemuxState.exhausted) :=
  ⟨rfl, exhausted_idempotent (Demuxer.mk [] DemuxState.exhausted) rfl 3⟩

/-- Modelled from the spec: scanning an ordered list of detector
confidence scores for the winner (§4.2).  Returns the registration index
and score of the best detector; on an exact tie the earlier-registered
(head-most) detector wins. -/
def bestScore : List Nat → Option (Nat × Nat)
  | [] => none
  | s :: rest =>
    match bestScore rest with
    | none => some (0, s)
    | some (j, b) => if b ≤ s then some (0, s) else some (j + 1, b)

/-- Modelled from the spec: the Format Prober of §4.2.  A detector is a
map from the byte content to a confidence score; detectors are applied in
registration order, the highest confidence wins with first-registered
winning exact ties, and the probe fails (`none`, standing for
`UnrecognizedFormatError`) when no detector exceeds the minimum
confidence threshold. -/
def probe_select (detectors : List (List Nat → Nat)) (threshold : Nat)
    (bytes : List Nat) : Option Nat :=
  match bestScore (detectors.map (fun f => f bytes)) with
  | none => none
  | some (i, s) => if threshold < s then some i else none

theorem bestScore_eq_none : ∀ l : List Nat, bestScore l = none → l = [] := by
  intro l hl
  cases l with
  | nil => rfl
  | cons a rest =>
      unfold bestScore at hl
      rcases hr : bestScore rest with _ | ⟨j, b⟩ <;> rw [hr] at hl
      · simp at hl
      · by_cases hba : b ≤ a <;> simp [hba] at hl

theorem bestScore_spec : ∀ (l : List Nat) (i s : Nat), bestScore l = some (i, s) →
    l[i]? = some s
    ∧ (∀ (j s' : Nat), l[j]? = some s' → s' ≤ s)
    ∧ (∀ (j s' : Nat), j < i → l[j]? = some s' → s' < s) := by
  intro l
  induction l with
  | nil => intro i s h; simp [bestScore] at h
  | cons a rest ih =>
      intro i s h
      unfold bestScore at h
      rcases hr : bestScore rest with _ | ⟨j, b⟩ <;> rw [hr] at h
      · obtain ⟨rfl, rfl⟩ : 0 = i ∧ a = s := by simpa using h
        obtain rfl : rest = [] := bestScore_eq_none rest hr
        refine ⟨by simp, ?_, ?_⟩
        · intro k s' hk
          cases k with
          | zero => simp at hk; omega
          | succ k' => simp at hk
        · intro k s' hk
          omega
      · rcases ih j b hr with ⟨hget, hmax, hfirst⟩
        by_cases hba : b ≤ a
        · simp only [hba, if_true] at h
          obtain ⟨rfl, rfl⟩ : 0 = i ∧ a = s := by simpa using h
          refine ⟨by simp, ?_, ?_⟩
          · intro k s' hk
            cases k with
            | zero => simp at hk; omega
            | succ k' =>
                simp at hk
                have := hmax k' s' hk
                omega
          · intro k s' hk
            omega
        · simp only [hba, if_false] at h
          obtain ⟨rfl, rfl⟩ : j + 1 = i ∧ b = s := by simpa using h
          refine ⟨by simpa using hget, ?_, ?_⟩
          · intro k s' hk
            cases k with
            | zero => simp at hk; omega
            | succ k' =>
                simp at hk
                exact hmax k' s' hk
          · intro k s' hki hk
            cases k with
            | zero => simp at hk; omega
            | succ k' =>
                simp at hk
                exact hfirst k' s' (by omega) hk

/-- C7: probing is deterministic — over the same byte content the same
format index is selected, and the tie-break is what the spec states: the
selected detector scores above the threshold, no detector scores higher,
and every earlier-registered detector scores strictly lower (so on an
exact tie the first-registered detector wins). -/
theorem probe_deterministic (detectors : List (List Nat → Nat)) (threshold : Nat)
    (bytes₁ bytes₂ : List Nat) (i : Nat)
    (hb : bytes₁ = bytes₂) (hi : probe_select detectors threshold bytes₁ = some i) :
    probe_select detectors threshold bytes₂ = some i
    ∧ ∃ s, (detectors.map (fun f => f bytes₁))[i]? = some s
        ∧ threshold < s
        ∧ (∀ (j s' : Nat), (detectors.map (fun f => f bytes₁))[j]? = some s' → s' ≤ s)
        ∧ (∀ (j s' : Nat), j < i →
            (detectors.map (fun f => f bytes₁))[j]? = some s' → s' < s) := by
  subst hb
  refine ⟨hi, ?_⟩
  unfold probe_select at hi
  rcases hr : bestScore (detectors.map (fun f => f bytes₁)) with _ | ⟨k, s⟩ <;>
    rw [hr] at hi
  · simp at hi
  · by_cases ht : threshold < s
    · simp only [ht, if_true] at hi
      obtain rfl : k = i := by simpa using hi
      rcases bestScore_spec _ k s hr with ⟨hg, hm, hf⟩
      exact ⟨s, hg, ht, hm, hf⟩
    · simp only [ht, if_false] at hi
      simp at hi

/-- Three detectors with confidences 5, 5 and 3: the exact tie between
the first two is resolved in favour of the first-registered one. -/
theorem probe_deterministic_witness :
    ([0] : List Nat) = [0]
    ∧ probe_select [fun _ => 5, fun _ => 5, fun _ => 3] 1 [0] = some 0
    ∧ (probe_select [fun _ => 5, fun _ => 5, fun _ => 3] 1 [0] = some 0
       ∧ ∃ s, (([fun _ => 5, fun _ => 5, fun _ => 3] :
                  List (List Nat → Nat)).map (fun f => f [0]))[0]? = some s
           ∧ 1 < s
           ∧ (∀ (j s' : Nat), (([fun _ => 5, fun _ => 5, fun _ => 3] :
                  List (List Nat → Nat)).map (fun f => f [0]))[j]? = some s' →
                s' ≤ s)
           ∧ (∀ (j s' : Nat), j < 0 →
               (([fun _ => 5, fun _ => 5, fun _ => 3] :
                  List (List Nat → Nat)).map (fun f => f [0]))[j]? = some s' →
                s' < s)) :=
  ⟨rfl, rfl, probe_deterministic [fun _ => 5, fun _ => 5, fun _ => 3] 1 [0] [0] 0 rfl rfl⟩

/-- Modelled from the spec: scan of the container index for the packet of
stream `sid` with the greatest timestamp at or before `t` (§4.3 `seek`).
Returns the arrival-order position and the packet; among equal greatest
timestamps the earliest qualifying packet is kept. -/
def bestAtOrBefore (sid t : Nat) : List Packet → Option (Nat × Packet)
  | [] => none
  | p :: rest =>
    match bestAtOrBefore sid t rest with
    | none => if p.streamId = sid ∧ p.ts ≤ t then some (0, p) else none
    | some (j, q) =>
        if p.streamId = sid ∧ p.ts ≤ t ∧ q.ts ≤ p.ts then some (0, p)
        else some (j + 1, q)

/-- Seek error kinds of §4.3 / §7. -/
inductive SeekError where
  | invalidStream
  | seekIndexUnavailable
deriving DecidableEq

/-- Modelled from the spec: a Demuxer as seen by `seek` — the stream
table, the indexed packets in arrival order, the cursor, and whether the
container carries a seek index (§4.3). -/
structure SeekDemuxer where
  streams : List Nat
  packets : List Packet
  cursor : Nat
  hasIndex : Bool
deriving DecidableEq

/-- Modelled from the spec: `seek(stream_id, timestamp)` (§4.3).  Fails
with `InvalidStreamError` when `stream_id` is unknown and with
`SeekIndexUnavailableError` when no index is available (the case where
the stream has no packet at or before `t` is reported the same way; the
spec leaves it open and the claim concerns successful seeks only).  On
success the cursor is positioned on the located packet and its timestamp
is returned. -/
def sm_seek (d : SeekDemuxer) (sid t : Nat) :
    Except SeekError (SeekDemuxer × Nat) :=
  if sid ∈ d.streams then
    if d.hasIndex then
      match bestAtOrBefore sid t d.packets with
      | some (i, p) => Except.ok ({ d with cursor := i }, p.ts)
      | none => Except.error SeekError.seekIndexUnavailable
    else Except.error SeekError.seekIndexUnavailable
  else Except.error SeekError.invalidStream

/-- The packet the next `next_packet` call returns after a seek: the one
under the cursor. -/
def packet_at_cursor (d : SeekDemuxer) : Option Packet :=
  d.packets[d.cursor]?

theorem bestAtOrBefore_none : ∀ (l : List Packet) (sid t : Nat),
    bestAtOrBefore sid t l = none →
    ∀ q ∈ l, ¬ (q.streamId = sid ∧ q.ts ≤ t) := by
  intro l
  induction l with
  | nil => intro sid t _ q hq; simp at hq
  | cons p rest ih =>
      intro sid t h q hq
      unfold bestAtOrBefore at h
      rcases hr : bestAtOrBefore sid t rest with _ | ⟨j, b⟩ <;> rw [hr] at h
      · by_cases hc : p.streamId = sid ∧ p.ts ≤ t
        · simp [hc] at h
        · rcases List.mem_cons.mp hq with rfl | hq
          · exact hc
          · exact ih sid t hr q hq
      · by_cases hc : p.streamId = sid ∧ p.ts ≤ t ∧ b.ts ≤ p.ts <;> simp [hc] at h

theorem bestAtOrBefore_spec : ∀ (l : List Packet) (sid t i : Nat) (p : Packet),
    bestAtOrBefore sid t l = some (i, p) →
    l[i]? = some p ∧ p.streamId = sid ∧ p.ts ≤ t
    ∧ ∀ q ∈ l, q.streamId = sid → q.ts ≤ t → q.ts ≤ p.ts := by
  intro l
  induction l with
  | nil => intro sid t i p h; simp [bestAtOrBefore] at h
  | cons a rest ih =>
      intro sid t i p h
      unfold bestAtOrBefore at h
      rcases hr : bestAtOrBefore sid t rest with _ | ⟨j, b⟩ <;> rw [hr] at h
      · by_cases hc : a.streamId = sid ∧ a.ts ≤ t
        · simp only [hc, if_true] at h
          obtain ⟨rfl, rfl⟩ : 0 = i ∧ a = p := by simpa using h
          refine ⟨by simp, hc.1, hc.2, ?_⟩
          intro q hq h1 h2
          rcases List.mem_cons.mp hq with rfl | hq
          · omega
          · exact absurd ⟨h1, h2⟩ (bestAtOrBefore_none rest sid t hr q hq)
        · simp [hc] at h
      · rcases ih sid t j b hr with ⟨hget, hb1, hb2, hmax⟩
        by_cases hc : a.streamId = sid ∧ a.ts ≤ t ∧ b.ts ≤ a.ts
        · simp only [hc, if_true] at h
          obtain ⟨rfl, rfl⟩ : 0 = i ∧ a = p := by simpa using h
          refine ⟨by simp, hc.1, hc.2.1, ?_⟩
          intro q hq h1 h2
          rcases List.mem_cons.mp hq with rfl | hq
          · omega
          · have := hmax q hq h1 h2
            have := hc.2.2
            omega
        · simp only [hc, if_false] at h
          obtain ⟨rfl, rfl⟩ : j + 1 = i ∧ b = p := by simpa using h
          refine ⟨by simpa using hget, hb1, hb2, ?_⟩
          intro q hq h1 h2
          rcases List.mem_cons.mp hq with rfl | hq
          · push_neg at hc
            have := hc h1 h2
            omega
          · exact hmax q hq h1 h2

/-- C8: seek/next_packet round trip — after a successful
`seek(stream_id, t)` the next `next_packet` yields a packet of that
stream whose timestamp is the returned `actual_timestamp`, is at most
`t`, and is the greatest timestamp of that stream at or before `t`
(no packet with a timestamp in `(returned, t]` is skipped). -/
theorem seek_roundtrip (d : SeekDemuxer) (sid t : Nat) (d' : SeekDemuxer) (ts : Nat)
    (h : sm_seek d sid t = Except.ok (d', ts)) :
    ∃ p, packet_at_cursor d' = some p
      ∧ p.streamId = sid ∧ p.ts ≤ t ∧ p.ts = ts
      ∧ ∀ q ∈ d.packets, q.streamId = sid → q.ts ≤ t → q.ts ≤ p.ts := by
  unfold sm_seek at h
  by_cases hs : sid ∈ d.streams
  · rw [if_pos hs] at h
    by_cases hx : d.hasIndex = true
    · rw [if_pos hx] at h
      rcases hb : bestAtOrBefore sid t d.packets with _ | ⟨i, p⟩ <;> rw [hb] at h
      · simp at h
      · obtain ⟨hd', hts⟩ : ({ d with cursor := i } : SeekDemuxer) = d' ∧ p.ts = ts := by
          simpa using h
        rcases bestAtOrBefore_spec d.packets sid t i p hb with ⟨hget, hsid, hle, hmax⟩
        refine ⟨p, ?_, hsid, hle, hts, hmax⟩
        rw [← hd']
        simpa [packet_at_cursor] using hget
    · rw [if_neg hx] at h
      simp at h
  · rw [if_neg hs] at h
    simp at h

/-- The scenario of §8: one stream with packets at timestamps 0, 10 and
20; `seek(1, 15)` succeeds with actual timestamp 10 and the next packet
is the one at 10. -/
theorem seek_roundtrip_witness :
    sm_seek (SeekDemuxer.mk [1] [⟨1, 0, []⟩, ⟨1, 10, []⟩, ⟨1, 20, []⟩] 0 true) 1 15 =
      Except.ok (SeekDemuxer.mk [1] [⟨1, 0, []⟩, ⟨1, 10, []⟩, ⟨1, 20, []⟩] 1 true, 10)
    ∧ ∃ p, packet_at_cursor
          (SeekDemuxer.mk [1] [⟨1, 0, []⟩, ⟨1, 10, []⟩, ⟨1, 20, []⟩] 1 true) = some p
        ∧ p.streamId = 1 ∧ p.ts ≤ 15 ∧ p.ts = 10
        ∧ ∀ q ∈ (SeekDemuxer.mk [1] [⟨1, 0, []⟩, ⟨1, 10, []⟩, ⟨1, 20, []⟩] 0 true).packets,
            q.streamId = 1 → q.ts ≤ 15 → q.ts ≤ p.ts :=
  ⟨rfl,
   seek_roundtrip (SeekDemuxer.mk [1] [⟨1, 0, []⟩, ⟨1, 10, []⟩, ⟨1, 20, []⟩] 0 true)
     1 15 (SeekDemuxer.mk [1] [⟨1, 0, []⟩, ⟨1, 10, []⟩, ⟨1, 20, []⟩] 1 true) 10 rfl⟩

end Symphonia
